import Mathlib

/-!
Verification development for the weathrs-mobile client utilities.

Two subsystems are embedded from the source:

* the cron-schedule codec of `src/app/scheduler.tsx` (`CRON_PRESETS`,
  `timeToCron`, `cronToTime`, `formatCron`);
* the chart axis scaler `getYAxisProps` of
  `src/src/components/WeatherCharts.tsx`.

JavaScript strings are modelled as `List Char`; `String.prototype.split(' ')`,
`parseInt`, `String.prototype.includes`, number-to-string conversion and
`String.prototype.padStart(2, '0')` are embedded below.  Numbers are modelled
as exact rationals (the spec's stated contract is exact arithmetic);
`Math.ceil`, `Math.floor`, `Math.abs`, `Math.min`, `Math.max` become
`Int.ceil`, `Int.floor`, `abs`, `min`, `max`, and
`Math.pow(10, Math.floor(Math.log10 q))` becomes `10 ^ floorLog10 q` with
`floorLog10` the exact integer part of the base-10 logarithm of a positive
rational.  JavaScript `NaN` (the result of a failed `parseInt`) is modelled
as `Option.none`, with the JS comparison and rendering semantics of `NaN`
made explicit (`jsGtNum`, `jsGeNum`, `jsNumToStr`).
-/

/-- JavaScript strings, modelled as lists of characters. -/
abbrev Str := List Char

/-- Coerce a Lean string literal into the model's string type. -/
def str (s : String) : Str := s.data

/-- Worker for `splitOnSpace`, accumulating the current field in reverse. -/
def splitOnSpaceAux : Str → Str → List Str
  | [], acc => [acc.reverse]
  | c :: cs, acc =>
    if c = ' ' then acc.reverse :: splitOnSpaceAux cs [] else splitOnSpaceAux cs (c :: acc)

/-- JavaScript `s.split(' ')`: split on every single space, keeping empty fields. -/
def splitOnSpace (s : Str) : List Str := splitOnSpaceAux s []

/-- Decimal value of a string of digit characters (most significant first). -/
def digitsToNat (ds : Str) : Nat := ds.foldl (fun a c => a * 10 + (c.toNat - 48)) 0

/-- JavaScript `parseInt(s)` (radix 10): skip leading whitespace, read an
optional sign and then the longest prefix of decimal digits; `NaN` (here
`none`) when no digit is found. -/
def parseIntJS (s : Str) : Option Int :=
  let t := s.dropWhile Char.isWhitespace
  let p : Int × Str :=
    match t with
    | c :: r => if c = '-' then (-1, r) else if c = '+' then (1, r) else (1, t)
    | [] => (1, t)
  let ds := p.2.takeWhile Char.isDigit
  if ds.isEmpty then none else some (p.1 * digitsToNat ds)

/-- JavaScript `s.includes(c)` for a single-character needle. -/
def strContains (s : Str) (c : Char) : Bool := s.contains c

/-- Worker for `natRepr`; the fuel dominates the number of digits. -/
def natReprAux : Nat → Nat → Str → Str
  | 0, _, acc => acc
  | fuel + 1, n, acc =>
    let d := Char.ofNat (48 + n % 10)
    if n < 10 then d :: acc else natReprAux fuel (n / 10) (d :: acc)

/-- Decimal rendering of a natural number, as JavaScript `String(n)`. -/
def natRepr (n : Nat) : Str := natReprAux (n + 1) n []

/-- Decimal rendering of an integer, as JavaScript `String(n)`. -/
def intRepr (n : Int) : Str := if n < 0 then '-' :: natRepr n.natAbs else natRepr n.natAbs

/-- One entry of the preset table of `src/app/scheduler.tsx`. -/
structure CronPreset where
  label : Str
  value : Str
  description : Str
deriving DecidableEq

/-- The `CRON_PRESETS` table of `src/app/scheduler.tsx` (six-field format). -/
def CRON_PRESETS : List CronPreset :=
  [ ⟨str "Custom Time...", str "custom", str "Set a specific time"⟩,
    ⟨str "6:00 AM Daily", str "0 0 6 * * *", str "Every day at 6 AM"⟩,
    ⟨str "7:00 AM Daily", str "0 0 7 * * *", str "Every day at 7 AM"⟩,
    ⟨str "8:00 AM Daily", str "0 0 8 * * *", str "Every day at 8 AM"⟩,
    ⟨str "6:00 PM Daily", str "0 0 18 * * *", str "Every day at 6 PM"⟩,
    ⟨str "Every 6 hours", str "0 0 */6 * * *", str "At minute 0 past every 6th hour"⟩,
    ⟨str "Every 12 hours", str "0 0 */12 * * *", str "At minute 0 past every 12th hour"⟩ ]

/-- `timeToCron` of `src/app/scheduler.tsx`: the template literal
`` `0 ${minute} ${hour} * * *` ``. -/
def timeToCron (hour minute : Nat) : Str :=
  str "0 " ++ natRepr minute ++ str " " ++ natRepr hour ++ str " * * *"

/-- `cronToTime` of `src/app/scheduler.tsx`: split on spaces, require six
fields, `parseInt` fields 2 (minute) and 3 (hour), and reject when a parse
fails (`isNaN`) or the hour field contains `*` or `/`.  The result pairs
hour with minute, as the source's `{ hour: h, minute: m }`. -/
def cronToTime (cron : Str) : Option (Int × Int) :=
  if (splitOnSpace cron).length ≠ 6 then none
  else
    match parseIntJS ((splitOnSpace cron).getD 2 []),
        parseIntJS ((splitOnSpace cron).getD 1 []) with
    | some h, some m =>
        if strContains ((splitOnSpace cron).getD 2 []) '*' ∨
            strContains ((splitOnSpace cron).getD 2 []) '/' then none
        else some (h, m)
    | _, _ => none

/-- JavaScript `h > k` where `h` may be `NaN` (`none`): `NaN` compares false. -/
def jsGtNum (h : Option Int) (k : Int) : Bool :=
  match h with
  | some v => k < v
  | none => false

/-- JavaScript `h >= k` where `h` may be `NaN` (`none`): `NaN` compares false. -/
def jsGeNum (h : Option Int) (k : Int) : Bool :=
  match h with
  | some v => k ≤ v
  | none => false

/-- JavaScript number-to-string inside a template literal; `NaN` renders as
the text `NaN`. -/
def jsNumToStr : Option Int → Str
  | none => str "NaN"
  | some n => intRepr n

/-- JavaScript `s.padStart(2, '0')`. -/
def padStart2 (s : Str) : Str := List.replicate (2 - s.length) '0' ++ s

/-- The source's `h === 0 ? 12 : h > 12 ? h - 12 : h` with `h` possibly `NaN`
(JavaScript `NaN === 0` and `NaN > 12` are both false). -/
def h12Of (h : Option Int) : Option Int :=
  if h = some 0 then some 12 else if jsGtNum h 12 then h.map (fun v => v - 12) else h

/-- The source's `h >= 12 ? 'PM' : 'AM'` with `h` possibly `NaN`. -/
def ampmOf (h : Option Int) : Str := if jsGeNum h 12 then str "PM" else str "AM"

/-- The daily-schedule branch of `formatCron`: parse the hour and minute
fields and render `` `Daily at ${h12}:${m.toString().padStart(2, '0')} ${ampm}` ``. -/
def dailyRender (hour minute : Str) : Str :=
  let h := parseIntJS hour
  let m := parseIntJS minute
  str "Daily at " ++ jsNumToStr (h12Of h) ++ str ":" ++
    padStart2 (jsNumToStr m) ++ str " " ++ ampmOf h

/-- The field selection of `formatCron`: the source's
`is6 ? parts[i6] : parts[i5]` with `is6 = (parts.length === 6)` (minute uses
indices `1/0`, hour `2/1`, dayOfMonth `3/2`, month `4/3`, dayOfWeek `5/4`). -/
def cronFieldAt (cron : Str) (i6 i5 : Nat) : Str :=
  if (splitOnSpace cron).length == 6 then (splitOnSpace cron).getD i6 []
  else (splitOnSpace cron).getD i5 []

/-- `formatCron` of `src/app/scheduler.tsx`: return a preset's label on an
exact value match; otherwise split on spaces, return the raw string when
fewer than five fields are present, select the minute/hour/dayOfMonth/month/
dayOfWeek fields according to whether the expression has six fields, render
the daily label when dayOfMonth, month and dayOfWeek are `*` and hour and
minute both differ from the exact string `*`, and fall back to the raw
string otherwise. -/
def formatCron (cron : Str) : Str :=
  match CRON_PRESETS.find? (fun p => p.value == cron) with
  | some p => p.label
  | none =>
    if (splitOnSpace cron).length < 5 then cron
    else if cronFieldAt cron 3 2 = str "*" ∧ cronFieldAt cron 4 3 = str "*" ∧
        cronFieldAt cron 5 4 = str "*" ∧ cronFieldAt cron 2 1 ≠ str "*" ∧
        cronFieldAt cron 1 0 ≠ str "*" then
      dailyRender (cronFieldAt cron 2 1) (cronFieldAt cron 1 0)
    else cron

/-- Modelled from the spec: the expected display label
`Daily at {12-hour}:{minute:02d} {AM|PM}` of the claims, with hour `0`
rendered as `12`, hours above `12` reduced by `12`, and `AM` exactly when
the 24-hour value is below `12`.  Used to compare `formatCron`'s output
against the claims' wording. -/
def dailyLabelSpec (h m : Nat) : Str :=
  str "Daily at " ++ natRepr (if h = 0 then 12 else if 12 < h then h - 12 else h) ++
    str ":" ++ padStart2 (natRepr m) ++ str " " ++ (if h < 12 then str "AM" else str "PM")

/-- A five-field daily cron expression `"{minute} {hour} * * *"` built from a
clock time, the five-field analogue of `timeToCron`. -/
def fiveFieldDaily (hour minute : Nat) : Str :=
  natRepr minute ++ str " " ++ natRepr hour ++ str " * * *"

/-- The ten decimal digit characters. -/
def digitChars : List Char := ['0', '1', '2', '3', '4', '5', '6', '7', '8', '9']

/-- One chart sample, the source's `{ value, label }` item shape. -/
structure SeriesPoint where
  value : ℚ
  label : Str

/-- The y-axis props object built by `getYAxisProps`; the three fields of the
negative-value branch are optional, mirroring the two return shapes of the
source. -/
structure AxisScale where
  maxValue : ℤ
  noOfSections : ℤ
  stepValue : ℤ
  mostNegativeValue : Option ℤ
  noOfSectionsBelowXAxis : Option ℤ
  xAxisLabelsVerticalShift : Option ℤ
deriving DecidableEq

/-- Worker for `natLog10`; the fuel dominates the number of digits. -/
def natLog10Aux : Nat → Nat → Nat
  | 0, _ => 0
  | fuel + 1, n => if n < 10 then 0 else natLog10Aux fuel (n / 10) + 1

/-- Number of decimal digits of `n` minus one, i.e. `⌊log10 n⌋` for `n ≥ 1`. -/
def natLog10 (n : Nat) : Nat := natLog10Aux n n

/-- Exact value of `Math.floor(Math.log10 q)` for a positive rational `q`:
for `q ≥ 1` the digit count of `⌊q⌋`, and for `0 < q < 1` determined from
the reciprocal. -/
def floorLog10 (q : ℚ) : ℤ :=
  if 1 ≤ q then (natLog10 ⌊q⌋.toNat : ℤ)
  else -((natLog10 ((⌈q⁻¹⌉).toNat - 1) : ℤ) + 1)

/-- The source's `datasets.flat().map((d) => d.value)`. -/
def allValuesOf (datasets : List (List SeriesPoint)) : List ℚ :=
  (datasets.flatten).map (fun d => d.value)

/-- `Math.min(...allValues)` over a non-empty list given as head and tail. -/
def minList (v : ℚ) (vs : List ℚ) : ℚ := vs.foldl min v

/-- `Math.max(...allValues)` over a non-empty list given as head and tail. -/
def maxList (v : ℚ) (vs : List ℚ) : ℚ := vs.foldl max v

/-- The source's `padding = Math.max(Math.ceil((maxVal - minVal) * 0.15), 2)`. -/
def paddingOf (mn mx : ℚ) : ℤ := max ⌈(mx - mn) * (3 / 20 : ℚ)⌉ 2

/-- The source's `paddedMax = maxVal + padding`. -/
def paddedMaxOf (mn mx : ℚ) : ℚ := mx + (paddingOf mn mx : ℚ)

/-- The source's `paddedMin = minVal - padding`. -/
def paddedMinOf (mn mx : ℚ) : ℚ := mn - (paddingOf mn mx : ℚ)

/-- The source's `range = paddedMax - Math.min(paddedMin, 0)`. -/
def rangeOf (mn mx : ℚ) : ℚ := paddedMaxOf mn mx - min (paddedMinOf mn mx) 0

/-- The source's `rawStep = range / 5`. -/
def rawStepOf (mn mx : ℚ) : ℚ := rangeOf mn mx / 5

/-- The source's `magnitude = Math.pow(10, Math.floor(Math.log10(rawStep)))`. -/
def magnitudeOf (mn mx : ℚ) : ℚ := (10 : ℚ) ^ floorLog10 (rawStepOf mn mx)

/-- The source's `residual = rawStep / magnitude`. -/
def residualOf (mn mx : ℚ) : ℚ := rawStepOf mn mx / magnitudeOf mn mx

/-- The source's 1 / 2.5 / 5 / 10 nice-step ladder:
`magnitude * (residual <= 1.5 ? 1 : residual <= 3.5 ? 2.5 : residual <= 7.5 ? 5 : 10)`. -/
def niceStepOf (mn mx : ℚ) : ℚ :=
  magnitudeOf mn mx *
    (if residualOf mn mx ≤ 3 / 2 then 1
     else if residualOf mn mx ≤ 7 / 2 then 5 / 2
     else if residualOf mn mx ≤ 15 / 2 then 5
     else 10)

/-- The source's `stepValue = Math.max(Math.ceil(niceStep), 1)`. -/
def stepValueOf (mn mx : ℚ) : ℤ := max ⌈niceStepOf mn mx⌉ 1

/-- The source's `noOfSections = Math.ceil(paddedMax / stepValue)`. -/
def noOfSectionsOf (mn mx : ℚ) : ℤ := ⌈paddedMaxOf mn mx / (stepValueOf mn mx : ℚ)⌉

/-- The source's `computedMax = noOfSections * stepValue`. -/
def computedMaxOf (mn mx : ℚ) : ℤ := noOfSectionsOf mn mx * stepValueOf mn mx

/-- The source's `noOfSectionsBelowXAxis = Math.ceil(Math.abs(paddedMin) / stepValue)`. -/
def nBelowOf (mn mx : ℚ) : ℤ := ⌈|paddedMinOf mn mx| / (stepValueOf mn mx : ℚ)⌉

/-- The source's `minVal = Math.min(...allValues)` (`0` when the list is
empty; that case is only reached under a non-emptiness hypothesis). -/
def minValOf (datasets : List (List SeriesPoint)) : ℚ :=
  match allValuesOf datasets with
  | [] => 0
  | v :: vs => minList v vs

/-- The source's `maxVal = Math.max(...allValues)` (`0` when the list is
empty; that case is only reached under a non-emptiness hypothesis). -/
def maxValOf (datasets : List (List SeriesPoint)) : ℚ :=
  match allValuesOf datasets with
  | [] => 0
  | v :: vs => maxList v vs

/-- `getYAxisProps` of `src/src/components/WeatherCharts.tsx`: flatten the
datasets, return the empty props object (`none`) when no values exist,
otherwise compute the padded bounds and the nice step, and return either the
three positive-axis fields (`paddedMin >= 0`) or the full six-field shape
with `mostNegativeValue`, `noOfSectionsBelowXAxis` and
`xAxisLabelsVerticalShift = Math.ceil(noOfSectionsBelowXAxis * (chartHeight / noOfSections))`. -/
def getYAxisProps (datasets : List (List SeriesPoint)) (chartHeight : ℚ) : Option AxisScale :=
  if allValuesOf datasets = [] then none
  else if 0 ≤ paddedMinOf (minValOf datasets) (maxValOf datasets) then
    some { maxValue := computedMaxOf (minValOf datasets) (maxValOf datasets),
           noOfSections := noOfSectionsOf (minValOf datasets) (maxValOf datasets),
           stepValue := stepValueOf (minValOf datasets) (maxValOf datasets),
           mostNegativeValue := none,
           noOfSectionsBelowXAxis := none, xAxisLabelsVerticalShift := none }
  else
    some { maxValue := computedMaxOf (minValOf datasets) (maxValOf datasets),
           noOfSections := noOfSectionsOf (minValOf datasets) (maxValOf datasets),
           stepValue := stepValueOf (minValOf datasets) (maxValOf datasets),
           mostNegativeValue :=
             some (nBelowOf (minValOf datasets) (maxValOf datasets) *
               stepValueOf (minValOf datasets) (maxValOf datasets)),
           noOfSectionsBelowXAxis := some (nBelowOf (minValOf datasets) (maxValOf datasets)),
           xAxisLabelsVerticalShift :=
             some ⌈(nBelowOf (minValOf datasets) (maxValOf datasets) : ℚ) *
               (chartHeight / (noOfSectionsOf (minValOf datasets) (maxValOf datasets) : ℚ))⌉ }

/-- The spec's mixed-sign example series `[[{value:-10,label:''},{value:5,label:''}]]`. -/
def seriesNegMix : List (List SeriesPoint) := [[⟨-10, str ""⟩, ⟨5, str ""⟩]]

/-- The spec's single-point example series `[[{value:50,label:''}]]`. -/
def seriesSingle50 : List (List SeriesPoint) := [[⟨50, str ""⟩]]

/-- An entirely negative single-point series `[[{value:-100,label:''}]]`. -/
def seriesAllNeg : List (List SeriesPoint) := [[⟨-100, str ""⟩]]

/-- The floor of `stepValue` at `1` in the source makes the step positive. -/
theorem one_le_stepValueOf (mn mx : ℚ) : 1 ≤ stepValueOf mn mx := le_max_right _ _

/-- The step value, cast to the rationals, is positive. -/
theorem stepValueOf_cast_pos (mn mx : ℚ) : (0 : ℚ) < (stepValueOf mn mx : ℚ) := by
  have h := one_le_stepValueOf mn mx
  have h0 : (0 : ℤ) < stepValueOf mn mx := by omega
  exact_mod_cast h0

/-- The padding floor `K = 2` of the source. -/
theorem two_le_paddingOf (mn mx : ℚ) : (2 : ℤ) ≤ paddingOf mn mx := le_max_right _ _

/-- The padded maximum exceeds the raw maximum by at least the padding floor. -/
theorem add_two_le_paddedMaxOf (mn mx : ℚ) : mx + 2 ≤ paddedMaxOf mn mx := by
  unfold paddedMaxOf
  have h : (2 : ℚ) ≤ (paddingOf mn mx : ℚ) := by exact_mod_cast two_le_paddingOf mn mx
  linarith

/-- Rounding the section count up cannot lose height: `noOfSections * stepValue`
is at least `paddedMax`. -/
theorem paddedMax_le_computedMax (mn mx : ℚ) :
    paddedMaxOf mn mx ≤ (computedMaxOf mn mx : ℚ) := by
  have hs0 := stepValueOf_cast_pos mn mx
  have hceil : paddedMaxOf mn mx / (stepValueOf mn mx : ℚ) ≤
      (⌈paddedMaxOf mn mx / (stepValueOf mn mx : ℚ)⌉ : ℚ) := Int.le_ceil _
  have hmul := mul_le_mul_of_nonneg_right hceil hs0.le
  rw [div_mul_cancel₀ _ (ne_of_gt hs0)] at hmul
  calc paddedMaxOf mn mx
      ≤ (⌈paddedMaxOf mn mx / (stepValueOf mn mx : ℚ)⌉ : ℚ) * (stepValueOf mn mx : ℚ) := hmul
    _ = (computedMaxOf mn mx : ℚ) := by unfold computedMaxOf noOfSectionsOf; push_cast; ring

/-- Any successful result of `getYAxisProps` carries the computed maximum,
section count and step of the padded min/max of its input values. -/
theorem getYAxisProps_some (ds : List (List SeriesPoint)) (ch : ℚ) (r : AxisScale)
    (h : getYAxisProps ds ch = some r) :
    r.maxValue = computedMaxOf (minValOf ds) (maxValOf ds) ∧
    r.noOfSections = noOfSectionsOf (minValOf ds) (maxValOf ds) ∧
    r.stepValue = stepValueOf (minValOf ds) (maxValOf ds) := by
  unfold getYAxisProps at h
  split_ifs at h with h1 h2
  · obtain rfl := Option.some.inj h
    exact ⟨rfl, rfl, rfl⟩
  · obtain rfl := Option.some.inj h
    exact ⟨rfl, rfl, rfl⟩

/-- When the padded minimum is negative, a successful result of
`getYAxisProps` carries the three negative-axis fields of the source's
second return object. -/
theorem getYAxisProps_neg_fields (ds : List (List SeriesPoint)) (ch : ℚ) (r : AxisScale)
    (h : getYAxisProps ds ch = some r)
    (hneg : paddedMinOf (minValOf ds) (maxValOf ds) < 0) :
    r.noOfSectionsBelowXAxis = some (nBelowOf (minValOf ds) (maxValOf ds)) ∧
    r.mostNegativeValue = some (nBelowOf (minValOf ds) (maxValOf ds) *
      stepValueOf (minValOf ds) (maxValOf ds)) ∧
    r.xAxisLabelsVerticalShift = some ⌈(nBelowOf (minValOf ds) (maxValOf ds) : ℚ) *
      (ch / (noOfSectionsOf (minValOf ds) (maxValOf ds) : ℚ))⌉ := by
  unfold getYAxisProps at h
  split_ifs at h with h1 h2
  · exact absurd h2 (not_le.mpr hneg)
  · obtain rfl := Option.some.inj h
    exact ⟨rfl, rfl, rfl⟩

/-- C1: for every non-empty input series, the axis scale returned by
`getYAxisProps` satisfies `maxValue = noOfSections * stepValue` exactly,
where `noOfSections = ⌈paddedMax / stepValue⌉`. -/
theorem c1_maxValue_exact (ds : List (List SeriesPoint)) (ch : ℚ) (r : AxisScale)
    (h : getYAxisProps ds ch = some r) :
    r.maxValue = r.noOfSections * r.stepValue ∧
    r.noOfSections = ⌈paddedMaxOf (minValOf ds) (maxValOf ds) / (r.stepValue : ℚ)⌉ := by
  obtain ⟨h1, h2, h3⟩ := getYAxisProps_some ds ch r h
  constructor
  · rw [h1, h2, h3]; rfl
  · rw [h2, h3]; rfl

/-- C7: for every non-empty input series, `getYAxisProps` returns
`stepValue ≥ 1` (so the divisions by `stepValue` never divide by zero) and a
`maxValue` at least as large as the maximum input value. -/
theorem c7_headroom (ds : List (List SeriesPoint)) (ch : ℚ) (r : AxisScale)
    (h : getYAxisProps ds ch = some r) :
    1 ≤ r.stepValue ∧ (r.stepValue : ℚ) ≠ 0 ∧ maxValOf ds ≤ (r.maxValue : ℚ) := by
  obtain ⟨h1, h2, h3⟩ := getYAxisProps_some ds ch r h
  refine ⟨?_, ?_, ?_⟩
  · rw [h3]; exact one_le_stepValueOf _ _
  · rw [h3]; exact ne_of_gt (stepValueOf_cast_pos _ _)
  · rw [h1]
    have hpm := add_two_le_paddedMaxOf (minValOf ds) (maxValOf ds)
    have hcm := paddedMax_le_computedMax (minValOf ds) (maxValOf ds)
    linarith

/-- C6: for every input whose padded minimum is negative, the result carries
`noOfSectionsBelowXAxis = ⌈|paddedMin| / stepValue⌉` and
`mostNegativeValue = noOfSectionsBelowXAxis * stepValue` exactly. -/
theorem c6_negative_fields (ds : List (List SeriesPoint)) (ch : ℚ) (r : AxisScale)
    (h : getYAxisProps ds ch = some r)
    (hneg : paddedMinOf (minValOf ds) (maxValOf ds) < 0) :
    ∃ n : ℤ, r.noOfSectionsBelowXAxis = some n ∧
      n = ⌈|paddedMinOf (minValOf ds) (maxValOf ds)| / (r.stepValue : ℚ)⌉ ∧
      r.mostNegativeValue = some (n * r.stepValue) := by
  obtain ⟨hb, hm, hx⟩ := getYAxisProps_neg_fields ds ch r h hneg
  obtain ⟨h1, h2, h3⟩ := getYAxisProps_some ds ch r h
  refine ⟨nBelowOf (minValOf ds) (maxValOf ds), hb, ?_, ?_⟩
  · rw [h3]; rfl
  · rw [hm, h3]

/-- C8 (amended): when the negative-value branch is taken, the returned label
shift is the ceiling of `noOfSectionsBelowXAxis * (chartHeight / noOfSections)`
(the source applies `Math.ceil` to the product). -/
theorem c8_shift_is_ceil (ds : List (List SeriesPoint)) (ch : ℚ) (r : AxisScale)
    (h : getYAxisProps ds ch = some r)
    (hneg : paddedMinOf (minValOf ds) (maxValOf ds) < 0) :
    ∃ n : ℤ, r.noOfSectionsBelowXAxis = some n ∧
      r.xAxisLabelsVerticalShift = some ⌈(n : ℚ) * (ch / (r.noOfSections : ℚ))⌉ := by
  obtain ⟨hb, hm, hx⟩ := getYAxisProps_neg_fields ds ch r h hneg
  obtain ⟨h1, h2, h3⟩ := getYAxisProps_some ds ch r h
  refine ⟨nBelowOf (minValOf ds) (maxValOf ds), hb, ?_⟩
  rw [h2]
  exact hx

/-- C9 (amended): for every non-empty input series whose maximum value is
nonnegative, the returned `noOfSections` is at least `1`. -/
theorem c9_sections_pos_of_nonneg_max (ds : List (List SeriesPoint)) (ch : ℚ) (r : AxisScale)
    (h : getYAxisProps ds ch = some r) (hmx : 0 ≤ maxValOf ds) :
    1 ≤ r.noOfSections := by
  obtain ⟨h1, h2, h3⟩ := getYAxisProps_some ds ch r h
  rw [h2]
  have hs := stepValueOf_cast_pos (minValOf ds) (maxValOf ds)
  have hp : 0 < paddedMaxOf (minValOf ds) (maxValOf ds) := by
    have := add_two_le_paddedMaxOf (minValOf ds) (maxValOf ds)
    linarith
  have hq : 0 < paddedMaxOf (minValOf ds) (maxValOf ds) /
      (stepValueOf (minValOf ds) (maxValOf ds) : ℚ) := div_pos hp hs
  have := Int.ceil_pos.mpr hq
  unfold noOfSectionsOf
  omega

/-- The minimum of the mixed-sign example series. -/
theorem negmix_minVal : minValOf seriesNegMix = -10 := by
  show min (-10 : ℚ) 5 = -10
  exact min_eq_left (by norm_num)

/-- The maximum of the mixed-sign example series. -/
theorem negmix_maxVal : maxValOf seriesNegMix = 5 := by
  show max (-10 : ℚ) 5 = 5
  exact max_eq_right (by norm_num)

/-- Padding of the mixed-sign example: `max(ceil(15 * 0.15), 2) = 3`. -/
theorem negmix_padding : paddingOf (-10 : ℚ) 5 = 3 := by
  unfold paddingOf
  rw [show ((5 : ℚ) - (-10)) * (3 / 20 : ℚ) = 9 / 4 by norm_num]
  rw [show (⌈(9 / 4 : ℚ)⌉ : ℤ) = 3 by rw [Int.ceil_eq_iff]; norm_num]
  omega

/-- Padded maximum of the mixed-sign example. -/
theorem negmix_paddedMax : paddedMaxOf (-10 : ℚ) 5 = 8 := by
  unfold paddedMaxOf
  rw [negmix_padding]
  norm_num

/-- Padded minimum of the mixed-sign example. -/
theorem negmix_paddedMin : paddedMinOf (-10 : ℚ) 5 = -13 := by
  unfold paddedMinOf
  rw [negmix_padding]
  norm_num

/-- Raw step of the mixed-sign example: `21 / 5`. -/
theorem negmix_rawStep : rawStepOf (-10 : ℚ) 5 = 21 / 5 := by
  unfold rawStepOf rangeOf
  rw [negmix_paddedMax, negmix_paddedMin]
  rw [min_eq_left (show (-13 : ℚ) ≤ 0 by norm_num)]
  norm_num

/-- Nice step of the mixed-sign example: residual `4.2` lands on the `5` rung. -/
theorem negmix_step : stepValueOf (-10 : ℚ) 5 = 5 := by
  have hlog : floorLog10 (21 / 5 : ℚ) = 0 := by
    unfold floorLog10
    rw [if_pos (show (1 : ℚ) ≤ 21 / 5 by norm_num)]
    rw [show (⌊(21 / 5 : ℚ)⌋ : ℤ) = 4 by rw [Int.floor_eq_iff]; norm_num]
    decide
  have hmag : magnitudeOf (-10 : ℚ) 5 = 1 := by
    unfold magnitudeOf
    rw [negmix_rawStep, hlog]
    norm_num
  have hres : residualOf (-10 : ℚ) 5 = 21 / 5 := by
    unfold residualOf
    rw [negmix_rawStep, hmag]
    norm_num
  have hnice : niceStepOf (-10 : ℚ) 5 = 5 := by
    unfold niceStepOf
    rw [hres, hmag]
    rw [if_neg (show ¬((21 / 5 : ℚ) ≤ 3 / 2) by norm_num)]
    rw [if_neg (show ¬((21 / 5 : ℚ) ≤ 7 / 2) by norm_num)]
    rw [if_pos (show (21 / 5 : ℚ) ≤ 15 / 2 by norm_num)]
    norm_num
  unfold stepValueOf
  rw [hnice]
  rw [show (⌈(5 : ℚ)⌉ : ℤ) = 5 by rw [Int.ceil_eq_iff]; norm_num]
  omega

/-- Section count of the mixed-sign example: `ceil(8 / 5) = 2`. -/
theorem negmix_sections : noOfSectionsOf (-10 : ℚ) 5 = 2 := by
  unfold noOfSectionsOf
  rw [negmix_paddedMax, negmix_step]
  rw [Int.ceil_eq_iff]
  norm_num

/-- Computed maximum of the mixed-sign example. -/
theorem negmix_computedMax : computedMaxOf (-10 : ℚ) 5 = 10 := by
  unfold computedMaxOf
  rw [negmix_sections, negmix_step]
  norm_num

/-- Below-axis section count of the mixed-sign example: `ceil(13 / 5) = 3`. -/
theorem negmix_nBelow : nBelowOf (-10 : ℚ) 5 = 3 := by
  unfold nBelowOf
  rw [negmix_paddedMin, negmix_step]
  rw [show |(-13 : ℚ)| = 13 by norm_num]
  rw [Int.ceil_eq_iff]
  norm_num

/-- Full evaluation of `getYAxisProps` on the mixed-sign example series, for
any chart height. -/
theorem eval_seriesNegMix (ch : ℚ) : getYAxisProps seriesNegMix ch =
    some ⟨10, 2, 5, some 15, some 3, some ⌈(3 : ℚ) * (ch / 2)⌉⟩ := by
  unfold getYAxisProps
  rw [if_neg (show ¬(allValuesOf seriesNegMix = []) from by decide)]
  rw [negmix_minVal, negmix_maxVal]
  rw [if_neg (show ¬((0 : ℚ) ≤ paddedMinOf (-10 : ℚ) 5) from by
    rw [negmix_paddedMin]; norm_num)]
  rw [negmix_computedMax, negmix_sections, negmix_step, negmix_nBelow]
  norm_num

/-- Evaluation of the mixed-sign example at the source's chart height `180`. -/
theorem eval_negmix_180 : getYAxisProps seriesNegMix 180 =
    some ⟨10, 2, 5, some 15, some 3, some 270⟩ := by
  rw [eval_seriesNegMix 180]
  rw [show (⌈(3 : ℚ) * ((180 : ℚ) / 2)⌉ : ℤ) = 270 by rw [Int.ceil_eq_iff]; norm_num]

/-- The minimum of the single-point example series. -/
theorem single50_minVal : minValOf seriesSingle50 = 50 := rfl

/-- The maximum of the single-point example series. -/
theorem single50_maxVal : maxValOf seriesSingle50 = 50 := rfl

/-- Padding of the single-point example: the `K = 2` floor applies. -/
theorem single50_padding : paddingOf (50 : ℚ) 50 = 2 := by
  unfold paddingOf
  rw [show ((50 : ℚ) - 50) * (3 / 20 : ℚ) = 0 by norm_num]
  rw [show (⌈(0 : ℚ)⌉ : ℤ) = 0 by rw [Int.ceil_eq_iff]; norm_num]
  omega

/-- Padded maximum of the single-point example. -/
theorem single50_paddedMax : paddedMaxOf (50 : ℚ) 50 = 52 := by
  unfold paddedMaxOf
  rw [single50_padding]
  norm_num

/-- Padded minimum of the single-point example. -/
theorem single50_paddedMin : paddedMinOf (50 : ℚ) 50 = 48 := by
  unfold paddedMinOf
  rw [single50_padding]
  norm_num

/-- Raw step of the single-point example: `52 / 5`. -/
theorem single50_rawStep : rawStepOf (50 : ℚ) 50 = 52 / 5 := by
  unfold rawStepOf rangeOf
  rw [single50_paddedMax, single50_paddedMin]
  rw [min_eq_right (show (0 : ℚ) ≤ 48 by norm_num)]
  norm_num

/-- Nice step of the single-point example: residual `1.04` lands on the `1` rung. -/
theorem single50_step : stepValueOf (50 : ℚ) 50 = 10 := by
  have hlog : floorLog10 (52 / 5 : ℚ) = 1 := by
    unfold floorLog10
    rw [if_pos (show (1 : ℚ) ≤ 52 / 5 by norm_num)]
    rw [show (⌊(52 / 5 : ℚ)⌋ : ℤ) = 10 by rw [Int.floor_eq_iff]; norm_num]
    decide
  have hmag : magnitudeOf (50 : ℚ) 50 = 10 := by
    unfold magnitudeOf
    rw [single50_rawStep, hlog]
    norm_num
  have hres : residualOf (50 : ℚ) 50 = 26 / 25 := by
    unfold residualOf
    rw [single50_rawStep, hmag]
    norm_num
  have hnice : niceStepOf (50 : ℚ) 50 = 10 := by
    unfold niceStepOf
    rw [hres, hmag]
    rw [if_pos (show (26 / 25 : ℚ) ≤ 3 / 2 by norm_num)]
    norm_num
  unfold stepValueOf
  rw [hnice]
  rw [show (⌈(10 : ℚ)⌉ : ℤ) = 10 by rw [Int.ceil_eq_iff]; norm_num]
  omega

/-- Section count of the single-point example: `ceil(52 / 10) = 6`. -/
theorem single50_sections : noOfSectionsOf (50 : ℚ) 50 = 6 := by
  unfold noOfSectionsOf
  rw [single50_paddedMax, single50_step]
  rw [Int.ceil_eq_iff]
  norm_num

/-- Computed maximum of the single-point example. -/
theorem single50_computedMax : computedMaxOf (50 : ℚ) 50 = 60 := by
  unfold computedMaxOf
  rw [single50_sections, single50_step]
  norm_num

/-- Full evaluation of `getYAxisProps` on the single-point example series,
for any chart height (the positive branch ignores the height). -/
theorem eval_seriesSingle50 (ch : ℚ) : getYAxisProps seriesSingle50 ch =
    some ⟨60, 6, 10, none, none, none⟩ := by
  unfold getYAxisProps
  rw [if_neg (show ¬(allValuesOf seriesSingle50 = []) from by decide)]
  rw [single50_minVal, single50_maxVal]
  rw [if_pos (show (0 : ℚ) ≤ paddedMinOf (50 : ℚ) 50 from by
    rw [single50_paddedMin]; norm_num)]
  rw [single50_computedMax, single50_sections, single50_step]

/-- The minimum of the all-negative example series. -/
theorem allneg_minVal : minValOf seriesAllNeg = -100 := rfl

/-- The maximum of the all-negative example series. -/
theorem allneg_maxVal : maxValOf seriesAllNeg = -100 := rfl

/-- Padding of the all-negative example: the `K = 2` floor applies. -/
theorem allneg_padding : paddingOf (-100 : ℚ) (-100) = 2 := by
  unfold paddingOf
  rw [show ((-100 : ℚ) - (-100)) * (3 / 20 : ℚ) = 0 by norm_num]
  rw [show (⌈(0 : ℚ)⌉ : ℤ) = 0 by rw [Int.ceil_eq_iff]; norm_num]
  omega

/-- Padded maximum of the all-negative example: still negative. -/
theorem allneg_paddedMax : paddedMaxOf (-100 : ℚ) (-100) = -98 := by
  unfold paddedMaxOf
  rw [allneg_padding]
  norm_num

/-- Padded minimum of the all-negative example. -/
theorem allneg_paddedMin : paddedMinOf (-100 : ℚ) (-100) = -102 := by
  unfold paddedMinOf
  rw [allneg_padding]
  norm_num

/-- Raw step of the all-negative example: `4 / 5`, below one. -/
theorem allneg_rawStep : rawStepOf (-100 : ℚ) (-100) = 4 / 5 := by
  unfold rawStepOf rangeOf
  rw [allneg_paddedMax, allneg_paddedMin]
  rw [min_eq_left (show (-102 : ℚ) ≤ 0 by norm_num)]
  norm_num

/-- Nice step of the all-negative example: magnitude `0.1`, residual `8`,
rung `10`, hence step `1`. -/
theorem allneg_step : stepValueOf (-100 : ℚ) (-100) = 1 := by
  have hlog : floorLog10 (4 / 5 : ℚ) = -1 := by
    unfold floorLog10
    rw [if_neg (show ¬((1 : ℚ) ≤ 4 / 5) by norm_num)]
    rw [show ((4 / 5 : ℚ)⁻¹) = 5 / 4 by norm_num]
    rw [show (⌈(5 / 4 : ℚ)⌉ : ℤ) = 2 by rw [Int.ceil_eq_iff]; norm_num]
    decide
  have hmag : magnitudeOf (-100 : ℚ) (-100) = 1 / 10 := by
    unfold magnitudeOf
    rw [allneg_rawStep, hlog]
    norm_num
  have hres : residualOf (-100 : ℚ) (-100) = 8 := by
    unfold residualOf
    rw [allneg_rawStep, hmag]
    norm_num
  have hnice : niceStepOf (-100 : ℚ) (-100) = 1 := by
    unfold niceStepOf
    rw [hres, hmag]
    rw [if_neg (show ¬((8 : ℚ) ≤ 3 / 2) by norm_num)]
    rw [if_neg (show ¬((8 : ℚ) ≤ 7 / 2) by norm_num)]
    rw [if_neg (show ¬((8 : ℚ) ≤ 15 / 2) by norm_num)]
    norm_num
  unfold stepValueOf
  rw [hnice]
  rw [show (⌈(1 : ℚ)⌉ : ℤ) = 1 by rw [Int.ceil_eq_iff]; norm_num]
  omega

/-- Section count of the all-negative example: `ceil(-98 / 1) = -98`, a
negative count. -/
theorem allneg_sections : noOfSectionsOf (-100 : ℚ) (-100) = -98 := by
  unfold noOfSectionsOf
  rw [allneg_paddedMax, allneg_step]
  rw [Int.ceil_eq_iff]
  norm_num

/-- Computed maximum of the all-negative example. -/
theorem allneg_computedMax : computedMaxOf (-100 : ℚ) (-100) = -98 := by
  unfold computedMaxOf
  rw [allneg_sections, allneg_step]
  norm_num

/-- Below-axis section count of the all-negative example. -/
theorem allneg_nBelow : nBelowOf (-100 : ℚ) (-100) = 102 := by
  unfold nBelowOf
  rw [allneg_paddedMin, allneg_step]
  rw [show |(-102 : ℚ)| = 102 by norm_num]
  rw [Int.ceil_eq_iff]
  norm_num

/-- Full evaluation of `getYAxisProps` on the all-negative example series,
for any chart height. -/
theorem eval_seriesAllNeg (ch : ℚ) : getYAxisProps seriesAllNeg ch =
    some ⟨-98, -98, 1, some 102, some 102, some ⌈(102 : ℚ) * (ch / (-98 : ℚ))⌉⟩ := by
  unfold getYAxisProps
  rw [if_neg (show ¬(allValuesOf seriesAllNeg = []) from by decide)]
  rw [allneg_minVal, allneg_maxVal]
  rw [if_neg (show ¬((0 : ℚ) ≤ paddedMinOf (-100 : ℚ) (-100)) from by
    rw [allneg_paddedMin]; norm_num)]
  rw [allneg_computedMax, allneg_sections, allneg_step, allneg_nBelow]
  norm_num

/-- Witness for C1: the single-point series at chart height `180` yields
`maxValue = 60 = 6 * 10` with `6 = ceil(paddedMax / 10)`. -/
theorem c1_maxValue_exact_witness :
    (60 : ℤ) = 6 * 10 ∧
    (6 : ℤ) = ⌈paddedMaxOf (minValOf seriesSingle50) (maxValOf seriesSingle50) /
      ((10 : ℤ) : ℚ)⌉ :=
  c1_maxValue_exact seriesSingle50 180 ⟨60, 6, 10, none, none, none⟩ (eval_seriesSingle50 180)

/-- Witness for C7: the single-point series at chart height `180` yields a
step of `10 ≥ 1` and a maximum of `60 ≥ 50`. -/
theorem c7_headroom_witness :
    1 ≤ (10 : ℤ) ∧ ((10 : ℤ) : ℚ) ≠ 0 ∧ maxValOf seriesSingle50 ≤ ((60 : ℤ) : ℚ) :=
  c7_headroom seriesSingle50 180 ⟨60, 6, 10, none, none, none⟩ (eval_seriesSingle50 180)

/-- Witness for C6: the mixed-sign series at chart height `180` takes the
negative branch with `noOfSectionsBelowXAxis = 3` and `mostNegativeValue = 15`. -/
theorem c6_negative_fields_witness :
    ∃ n : ℤ, (some 3 : Option ℤ) = some n ∧
      n = ⌈|paddedMinOf (minValOf seriesNegMix) (maxValOf seriesNegMix)| / ((5 : ℤ) : ℚ)⌉ ∧
      (some 15 : Option ℤ) = some (n * 5) :=
  c6_negative_fields seriesNegMix 180 ⟨10, 2, 5, some 15, some 3, some 270⟩ eval_negmix_180
    (by rw [negmix_minVal, negmix_maxVal, negmix_paddedMin]; norm_num)

/-- Witness for the amended C8: the mixed-sign series at chart height `180`
carries `xAxisLabelsVerticalShift = ceil(3 * (180 / 2)) = 270`. -/
theorem c8_shift_is_ceil_witness :
    ∃ n : ℤ, (some 3 : Option ℤ) = some n ∧
      (some 270 : Option ℤ) = some ⌈(n : ℚ) * ((180 : ℚ) / ((2 : ℤ) : ℚ))⌉ :=
  c8_shift_is_ceil seriesNegMix 180 ⟨10, 2, 5, some 15, some 3, some 270⟩ eval_negmix_180
    (by rw [negmix_minVal, negmix_maxVal, negmix_paddedMin]; norm_num)

/-- Counterexample for C8 as stated: at chart height `25` on the mixed-sign
series, the product `noOfSectionsBelowXAxis * (chartHeight / noOfSections)`
is `3 * 12.5 = 37.5`, but the returned shift is its ceiling `38`, not the
exact product. -/
theorem c8_shift_counterexample :
    getYAxisProps seriesNegMix 25 = some ⟨10, 2, 5, some 15, some 3, some 38⟩ ∧
    ((38 : ℤ) : ℚ) ≠ (3 : ℚ) * ((25 : ℚ) / 2) := by
  constructor
  · rw [eval_seriesNegMix 25]
    rw [show (⌈(3 : ℚ) * ((25 : ℚ) / 2)⌉ : ℤ) = 38 by rw [Int.ceil_eq_iff]; norm_num]
  · norm_num

/-- Counterexample for C9 as stated: the all-negative single-point series
yields `noOfSections = -98`, which is not a positive section count. -/
theorem c9_sections_counterexample :
    getYAxisProps seriesAllNeg 180 = some ⟨-98, -98, 1, some 102, some 102, some (-187)⟩ ∧
    ¬(1 ≤ (-98 : ℤ)) := by
  constructor
  · rw [eval_seriesAllNeg 180]
    rw [show (⌈(102 : ℚ) * ((180 : ℚ) / (-98 : ℚ))⌉ : ℤ) = -187 by
      rw [Int.ceil_eq_iff]; norm_num]
  · norm_num

/-- Witness for the amended C9: the single-point series has a nonnegative
maximum and receives `noOfSections = 6 ≥ 1`. -/
theorem c9_sections_pos_witness : 1 ≤ (6 : ℤ) :=
  c9_sections_pos_of_nonneg_max seriesSingle50 180 ⟨60, 6, 10, none, none, none⟩
    (eval_seriesSingle50 180) (by rw [single50_maxVal]; norm_num)

/-- The character pushed by `natReprAux` is a decimal digit. -/
theorem ofNat_mod_mem_digitChars (n : Nat) : Char.ofNat (48 + n % 10) ∈ digitChars := by
  have h : n % 10 = 0 ∨ n % 10 = 1 ∨ n % 10 = 2 ∨ n % 10 = 3 ∨ n % 10 = 4 ∨ n % 10 = 5 ∨
      n % 10 = 6 ∨ n % 10 = 7 ∨ n % 10 = 8 ∨ n % 10 = 9 := by omega
  rcases h with h | h | h | h | h | h | h | h | h | h <;> rw [h] <;> decide

/-- Every character produced by `natReprAux` over a digit accumulator is a digit. -/
theorem natReprAux_mem (fuel : Nat) : ∀ n acc, (∀ c ∈ acc, c ∈ digitChars) →
    ∀ c ∈ natReprAux fuel n acc, c ∈ digitChars := by
  induction fuel with
  | zero => intro n acc hacc c hc; exact hacc c hc
  | succ fuel ih =>
    intro n acc hacc c hc
    simp only [natReprAux] at hc
    split_ifs at hc
    · rcases List.mem_cons.mp hc with hc | hc
      · rw [hc]; exact ofNat_mod_mem_digitChars n
      · exact hacc c hc
    · refine ih (n / 10) _ ?_ c hc
      intro x hx
      rcases List.mem_cons.mp hx with hx | hx
      · rw [hx]; exact ofNat_mod_mem_digitChars n
      · exact hacc x hx

/-- Every character of the decimal rendering of a natural is a digit. -/
theorem natRepr_mem (n : Nat) : ∀ c ∈ natRepr n, c ∈ digitChars :=
  natReprAux_mem (n + 1) n [] (by simp)

/-- The decimal rendering of a natural number is never empty. -/
theorem natRepr_ne_nil (n : Nat) : natRepr n ≠ [] := by
  have hlen : ∀ fuel m (acc : Str), acc.length ≤ (natReprAux fuel m acc).length := by
    intro fuel
    induction fuel with
    | zero => intro m acc; simp [natReprAux]
    | succ fuel ih =>
      intro m acc
      simp only [natReprAux]
      split_ifs
      · simp
      · calc acc.length ≤ (Char.ofNat (48 + m % 10) :: acc).length := by simp
          _ ≤ _ := ih (m / 10) _
  unfold natRepr
  simp only [natReprAux]
  split_ifs
  · simp
  · intro hemp
    have hc := hlen n (n / 10) [Char.ofNat (48 + n % 10)]
    rw [hemp] at hc
    simp at hc

/-- The accumulator of `natReprAux` is a suffix of its result. -/
theorem natReprAux_append (fuel : Nat) : ∀ n acc,
    natReprAux fuel n acc = natReprAux fuel n [] ++ acc := by
  induction fuel with
  | zero => intro n acc; simp [natReprAux]
  | succ fuel ih =>
    intro n acc
    simp only [natReprAux]
    split_ifs
    · simp
    · rw [ih (n / 10) (Char.ofNat (48 + n % 10) :: acc), ih (n / 10) [Char.ofNat (48 + n % 10)]]
      simp

/-- Appending one digit multiplies the accumulated value by ten. -/
theorem digitsToNat_append_singleton (xs : Str) (d : Char) :
    digitsToNat (xs ++ [d]) = digitsToNat xs * 10 + (d.toNat - 48) := by
  unfold digitsToNat
  rw [List.foldl_append]
  rfl

/-- Numeric value of a digit character built from a remainder below ten. -/
theorem ofNat_digit_toNat (k : Nat) (hk : k < 10) : (Char.ofNat (48 + k)).toNat - 48 = k := by
  have h : k = 0 ∨ k = 1 ∨ k = 2 ∨ k = 3 ∨ k = 4 ∨ k = 5 ∨
      k = 6 ∨ k = 7 ∨ k = 8 ∨ k = 9 := by omega
  rcases h with h | h | h | h | h | h | h | h | h | h <;> rw [h] <;> decide

/-- Reading back the decimal rendering recovers the number (fuel version). -/
theorem digitsToNat_natReprAux (fuel : Nat) : ∀ n, n < fuel →
    digitsToNat (natReprAux fuel n []) = n := by
  induction fuel with
  | zero => intro n hn; exact absurd hn (Nat.not_lt_zero n)
  | succ fuel ih =>
    intro n hn
    simp only [natReprAux]
    split_ifs with h10
    · have hk := ofNat_digit_toNat (n % 10) (Nat.mod_lt _ (by norm_num))
      unfold digitsToNat
      simp only [List.foldl]
      omega
    · rw [natReprAux_append fuel (n / 10) [Char.ofNat (48 + n % 10)]]
      rw [digitsToNat_append_singleton]
      have hdiv : n / 10 < fuel := by omega
      rw [ih (n / 10) hdiv]
      have hk := ofNat_digit_toNat (n % 10) (Nat.mod_lt _ (by norm_num))
      omega

/-- Reading back the decimal rendering recovers the number. -/
theorem digitsToNat_natRepr (n : Nat) : digitsToNat (natRepr n) = n :=
  digitsToNat_natReprAux (n + 1) n (by omega)

/-- `parseIntJS` on a non-empty all-digit string reads the whole string. -/
theorem parseIntJS_digits (s : Str) (hne : s ≠ []) (hd : ∀ c ∈ s, c ∈ digitChars) :
    parseIntJS s = some (digitsToNat s : Int) := by
  cases s with
  | nil => exact absurd rfl hne
  | cons c cs =>
    have hc : c ∈ digitChars := hd c (by simp)
    have hw : c.isWhitespace = false := by fin_cases hc <;> decide
    have hminus : ¬(c = '-') := by fin_cases hc <;> decide
    have hplus : ¬(c = '+') := by fin_cases hc <;> decide
    have htake : ∀ u : Str, (∀ x ∈ u, x ∈ digitChars) → u.takeWhile Char.isDigit = u := by
      intro u
      induction u with
      | nil => intro _; rfl
      | cons x xs ihx =>
        intro hu
        have hx : x.isDigit = true := by
          have hxd := hu x (by simp)
          fin_cases hxd <;> decide
        rw [List.takeWhile_cons, hx, ihx (fun y hy => hu y (by simp [hy]))]
        simp
    unfold parseIntJS
    rw [List.dropWhile_cons, hw]
    simp only [Bool.false_eq_true, if_false]
    rw [if_neg hminus, if_neg hplus]
    rw [htake (c :: cs) hd]
    simp

/-- `parseIntJS` recovers a natural from its decimal rendering. -/
theorem parseIntJS_natRepr (n : Nat) : parseIntJS (natRepr n) = some (n : Int) := by
  rw [parseIntJS_digits (natRepr n) (natRepr_ne_nil n) (natRepr_mem n), digitsToNat_natRepr]

/-- An all-digit string does not contain a non-digit character. -/
theorem strContains_eq_false_of_digits (s : Str) (hd : ∀ c ∈ s, c ∈ digitChars) (a : Char)
    (ha : a ∉ digitChars) : strContains s a = false := by
  unfold strContains
  rw [Bool.eq_false_iff]
  intro hcon
  exact ha (hd a (List.mem_of_elem_eq_true hcon))

/-- Splitting a space-free field followed by a space peels off the field. -/
theorem splitOnSpaceAux_field (a : Str) (ha : ∀ c ∈ a, c ≠ ' ') :
    ∀ (rest acc : Str), splitOnSpaceAux (a ++ ' ' :: rest) acc =
      (acc.reverse ++ a) :: splitOnSpaceAux rest [] := by
  induction a with
  | nil =>
    intro rest acc
    simp [splitOnSpaceAux]
  | cons c cs ih =>
    intro rest acc
    have hc : c ≠ ' ' := ha c (by simp)
    rw [List.cons_append, splitOnSpaceAux, if_neg hc]
    rw [ih (fun x hx => ha x (by simp [hx])) rest (c :: acc)]
    simp

/-- Splitting a space-free string yields that single field. -/
theorem splitOnSpaceAux_last (a : Str) (ha : ∀ c ∈ a, c ≠ ' ') :
    ∀ acc : Str, splitOnSpaceAux a acc = [acc.reverse ++ a] := by
  induction a with
  | nil => intro acc; simp [splitOnSpaceAux]
  | cons c cs ih =>
    intro acc
    have hc : c ≠ ' ' := ha c (by simp)
    rw [splitOnSpaceAux, if_neg hc]
    rw [ih (fun x hx => ha x (by simp [hx])) (c :: acc)]
    simp

/-- `split(' ')` peels off a leading space-free field. -/
theorem splitOnSpace_field (a rest : Str) (ha : ∀ c ∈ a, c ≠ ' ') :
    splitOnSpace (a ++ ' ' :: rest) = a :: splitOnSpace rest := by
  unfold splitOnSpace
  rw [splitOnSpaceAux_field a ha rest []]
  simp

/-- `split(' ')` of a space-free string is that single field. -/
theorem splitOnSpace_single (a : Str) (ha : ∀ c ∈ a, c ≠ ' ') : splitOnSpace a = [a] := by
  unfold splitOnSpace
  rw [splitOnSpaceAux_last a ha []]
  simp

/-- Decimal digits are not the space character. -/
theorem digit_ne_space (c : Char) (hc : c ∈ digitChars) : c ≠ ' ' := by
  fin_cases hc <;> decide

/-- Splitting the six-field encoding of a daily time. -/
theorem splitOnSpace_timeToCron (h m : Nat) :
    splitOnSpace (timeToCron h m) =
      [str "0", natRepr m, natRepr h, str "*", str "*", str "*"] := by
  have hm : ∀ c ∈ natRepr m, c ≠ ' ' := fun c hc => digit_ne_space c (natRepr_mem m c hc)
  have hh : ∀ c ∈ natRepr h, c ≠ ' ' := fun c hc => digit_ne_space c (natRepr_mem h c hc)
  have hshape : timeToCron h m = str "0" ++ ' ' :: (natRepr m ++ ' ' ::
      (natRepr h ++ ' ' :: (str "*" ++ ' ' :: (str "*" ++ ' ' :: str "*")))) := by
    unfold timeToCron
    simp [str, List.append_assoc]
  rw [hshape]
  rw [splitOnSpace_field (str "0") _ (by decide)]
  rw [splitOnSpace_field (natRepr m) _ hm]
  rw [splitOnSpace_field (natRepr h) _ hh]
  rw [splitOnSpace_field (str "*") _ (by decide)]
  rw [splitOnSpace_field (str "*") _ (by decide)]
  rw [splitOnSpace_single (str "*") (by decide)]

/-- Splitting the five-field daily expression. -/
theorem splitOnSpace_fiveFieldDaily (h m : Nat) :
    splitOnSpace (fiveFieldDaily h m) =
      [natRepr m, natRepr h, str "*", str "*", str "*"] := by
  have hm : ∀ c ∈ natRepr m, c ≠ ' ' := fun c hc => digit_ne_space c (natRepr_mem m c hc)
  have hh : ∀ c ∈ natRepr h, c ≠ ' ' := fun c hc => digit_ne_space c (natRepr_mem h c hc)
  have hshape : fiveFieldDaily h m = natRepr m ++ ' ' ::
      (natRepr h ++ ' ' :: (str "*" ++ ' ' :: (str "*" ++ ' ' :: str "*"))) := by
    unfold fiveFieldDaily
    simp [str, List.append_assoc]
  rw [hshape]
  rw [splitOnSpace_field (natRepr m) _ hm]
  rw [splitOnSpace_field (natRepr h) _ hh]
  rw [splitOnSpace_field (str "*") _ (by decide)]
  rw [splitOnSpace_field (str "*") _ (by decide)]
  rw [splitOnSpace_single (str "*") (by decide)]

/-- The generic round trip: decoding an encoded daily time recovers the
hour and minute, for any natural inputs. -/
theorem cronToTime_timeToCron (h m : Nat) :
    cronToTime (timeToCron h m) = some ((h : Int), (m : Int)) := by
  unfold cronToTime
  rw [splitOnSpace_timeToCron h m]
  rw [if_neg (by simp)]
  rw [show ([str "0", natRepr m, natRepr h, str "*", str "*", str "*"] : List Str).getD 2 [] =
    natRepr h from rfl]
  rw [show ([str "0", natRepr m, natRepr h, str "*", str "*", str "*"] : List Str).getD 1 [] =
    natRepr m from rfl]
  rw [parseIntJS_natRepr h, parseIntJS_natRepr m]
  have hstar : strContains (natRepr h) '*' = false :=
    strContains_eq_false_of_digits _ (natRepr_mem h) '*' (by decide)
  have hslash : strContains (natRepr h) '/' = false :=
    strContains_eq_false_of_digits _ (natRepr_mem h) '/' (by decide)
  show (if strContains (natRepr h) '*' ∨ strContains (natRepr h) '/' then none
      else some ((h : Int), (m : Int))) = some ((h : Int), (m : Int))
  rw [if_neg (by rw [hstar, hslash]; simp)]

/-- Rendering a nonnegative integer is rendering the natural number. -/
theorem intRepr_natCast (n : Nat) : intRepr (n : Int) = natRepr n := by
  unfold intRepr
  rw [if_neg (by omega), Int.natAbs_ofNat]

/-- The 12-hour rendering of a parsed literal hour matches the spec label's
hour arithmetic. -/
theorem h12_render (h : Nat) : jsNumToStr (h12Of (some (h : Int))) =
    natRepr (if h = 0 then 12 else if 12 < h then h - 12 else h) := by
  unfold h12Of
  by_cases h0 : h = 0
  · subst h0
    rw [if_pos (by norm_num), if_pos rfl]
    decide
  · rw [if_neg (by simp only [Option.some.injEq, Nat.cast_eq_zero]; exact h0)]
    rw [if_neg h0]
    by_cases hgt : 12 < h
    · rw [if_pos (by simp only [jsGtNum, decide_eq_true_eq]; exact_mod_cast hgt)]
      rw [if_pos hgt]
      show jsNumToStr (some ((h : Int) - 12)) = natRepr (h - 12)
      rw [show ((h : Int) - 12) = ((h - 12 : Nat) : Int) by omega]
      exact intRepr_natCast (h - 12)
    · rw [if_neg (by simp only [jsGtNum, decide_eq_true_eq]; omega)]
      rw [if_neg hgt]
      exact intRepr_natCast h

/-- The AM/PM rendering of a parsed literal hour matches the spec label. -/
theorem ampm_render (h : Nat) : ampmOf (some (h : Int)) =
    (if h < 12 then str "AM" else str "PM") := by
  unfold ampmOf
  by_cases h12 : h < 12
  · rw [if_neg (by simp only [jsGeNum, decide_eq_true_eq]; omega), if_pos h12]
  · rw [if_pos (by simp only [jsGeNum, decide_eq_true_eq]; omega), if_neg h12]

/-- The daily-branch rendering on literal hour and minute fields produces
exactly the spec's `Daily at {12-hour}:{minute:02d} {AM|PM}` label. -/
theorem dailyRender_natRepr (h m : Nat) :
    dailyRender (natRepr h) (natRepr m) = dailyLabelSpec h m := by
  simp only [dailyRender, dailyLabelSpec]
  rw [parseIntJS_natRepr h, parseIntJS_natRepr m]
  rw [h12_render h, ampm_render h]
  rw [show jsNumToStr (some ((m : Nat) : Int)) = natRepr m from intRepr_natCast m]

/-- A decimal rendering is never the string `*`. -/
theorem natRepr_ne_star (n : Nat) : natRepr n ≠ str "*" := by
  intro heq
  have hmem : '*' ∈ natRepr n := by rw [heq]; decide
  exact absurd (natRepr_mem n '*' hmem) (by decide)

/-- On a six-field expression, `cronFieldAt` selects the six-field index. -/
theorem cronFieldAt_of_len6 (s : Str) (h : (splitOnSpace s).length = 6) (i6 i5 : Nat) :
    cronFieldAt s i6 i5 = (splitOnSpace s).getD i6 [] := by
  unfold cronFieldAt
  rw [h]
  simp

/-- On a five-field expression, `cronFieldAt` selects the five-field index. -/
theorem cronFieldAt_of_len5 (s : Str) (h : (splitOnSpace s).length = 5) (i6 i5 : Nat) :
    cronFieldAt s i6 i5 = (splitOnSpace s).getD i5 [] := by
  unfold cronFieldAt
  rw [h]
  simp

/-- Strings whose space-splits have different lengths are distinct. -/
theorem ne_of_split_length (a b : Str)
    (hab : (splitOnSpace a).length ≠ (splitOnSpace b).length) : ¬((a == b) = true) := by
  intro hbeq
  exact hab (by rw [eq_of_beq hbeq])

/-- No preset value is a five-field daily expression (presets are six-field
expressions or the one-field `custom` sentinel). -/
theorem find?_fiveFieldDaily (h m : Nat) :
    CRON_PRESETS.find? (fun p => p.value == fiveFieldDaily h m) = none := by
  rw [List.find?_eq_none]
  intro p hp
  fin_cases hp
  · exact ne_of_split_length _ _
      (by rw [splitOnSpace_fiveFieldDaily]; exact (by decide : (1 : Nat) ≠ 5))
  · exact ne_of_split_length _ _
      (by rw [splitOnSpace_fiveFieldDaily]; exact (by decide : (6 : Nat) ≠ 5))
  · exact ne_of_split_length _ _
      (by rw [splitOnSpace_fiveFieldDaily]; exact (by decide : (6 : Nat) ≠ 5))
  · exact ne_of_split_length _ _
      (by rw [splitOnSpace_fiveFieldDaily]; exact (by decide : (6 : Nat) ≠ 5))
  · exact ne_of_split_length _ _
      (by rw [splitOnSpace_fiveFieldDaily]; exact (by decide : (6 : Nat) ≠ 5))
  · exact ne_of_split_length _ _
      (by rw [splitOnSpace_fiveFieldDaily]; exact (by decide : (6 : Nat) ≠ 5))
  · exact ne_of_split_length _ _
      (by rw [splitOnSpace_fiveFieldDaily]; exact (by decide : (6 : Nat) ≠ 5))

/-- `formatCron` on a five-field daily expression with literal hour and
minute renders the daily label. -/
theorem formatCron_fiveFieldDaily (h m : Nat) :
    formatCron (fiveFieldDaily h m) = dailyLabelSpec h m := by
  unfold formatCron
  rw [find?_fiveFieldDaily h m]
  have hlen5 : (splitOnSpace (fiveFieldDaily h m)).length = 5 := by
    rw [splitOnSpace_fiveFieldDaily]; rfl
  have hbody : (if (splitOnSpace (fiveFieldDaily h m)).length < 5 then fiveFieldDaily h m
      else if cronFieldAt (fiveFieldDaily h m) 3 2 = str "*" ∧
          cronFieldAt (fiveFieldDaily h m) 4 3 = str "*" ∧
          cronFieldAt (fiveFieldDaily h m) 5 4 = str "*" ∧
          cronFieldAt (fiveFieldDaily h m) 2 1 ≠ str "*" ∧
          cronFieldAt (fiveFieldDaily h m) 1 0 ≠ str "*" then
        dailyRender (cronFieldAt (fiveFieldDaily h m) 2 1) (cronFieldAt (fiveFieldDaily h m) 1 0)
      else fiveFieldDaily h m) = dailyLabelSpec h m := by
    rw [if_neg (by rw [hlen5]; norm_num)]
    rw [cronFieldAt_of_len5 _ hlen5 3 2, cronFieldAt_of_len5 _ hlen5 4 3,
      cronFieldAt_of_len5 _ hlen5 5 4, cronFieldAt_of_len5 _ hlen5 2 1,
      cronFieldAt_of_len5 _ hlen5 1 0]
    rw [splitOnSpace_fiveFieldDaily]
    rw [show ([natRepr m, natRepr h, str "*", str "*", str "*"] : List Str).getD 2 [] =
          str "*" from rfl,
        show ([natRepr m, natRepr h, str "*", str "*", str "*"] : List Str).getD 3 [] =
          str "*" from rfl,
        show ([natRepr m, natRepr h, str "*", str "*", str "*"] : List Str).getD 4 [] =
          str "*" from rfl,
        show ([natRepr m, natRepr h, str "*", str "*", str "*"] : List Str).getD 1 [] =
          natRepr h from rfl,
        show ([natRepr m, natRepr h, str "*", str "*", str "*"] : List Str).getD 0 [] =
          natRepr m from rfl]
    rw [if_pos ⟨rfl, rfl, rfl, natRepr_ne_star h, natRepr_ne_star m⟩]
    exact dailyRender_natRepr h m
  exact hbody

/-- `formatCron` on a six-field daily encoding that matches no preset
renders the daily label. -/
theorem formatCron_timeToCron_of_not_preset (h m : Nat)
    (hfind : CRON_PRESETS.find? (fun p => p.value == timeToCron h m) = none) :
    formatCron (timeToCron h m) = dailyLabelSpec h m := by
  unfold formatCron
  rw [hfind]
  have hlen6 : (splitOnSpace (timeToCron h m)).length = 6 := by
    rw [splitOnSpace_timeToCron]; rfl
  have hbody : (if (splitOnSpace (timeToCron h m)).length < 5 then timeToCron h m
      else if cronFieldAt (timeToCron h m) 3 2 = str "*" ∧
          cronFieldAt (timeToCron h m) 4 3 = str "*" ∧
          cronFieldAt (timeToCron h m) 5 4 = str "*" ∧
          cronFieldAt (timeToCron h m) 2 1 ≠ str "*" ∧
          cronFieldAt (timeToCron h m) 1 0 ≠ str "*" then
        dailyRender (cronFieldAt (timeToCron h m) 2 1) (cronFieldAt (timeToCron h m) 1 0)
      else timeToCron h m) = dailyLabelSpec h m := by
    rw [if_neg (by rw [hlen6]; norm_num)]
    rw [cronFieldAt_of_len6 _ hlen6 3 2, cronFieldAt_of_len6 _ hlen6 4 3,
      cronFieldAt_of_len6 _ hlen6 5 4, cronFieldAt_of_len6 _ hlen6 2 1,
      cronFieldAt_of_len6 _ hlen6 1 0]
    rw [splitOnSpace_timeToCron]
    rw [show ([str "0", natRepr m, natRepr h, str "*", str "*", str "*"] : List Str).getD 3 [] =
          str "*" from rfl,
        show ([str "0", natRepr m, natRepr h, str "*", str "*", str "*"] : List Str).getD 4 [] =
          str "*" from rfl,
        show ([str "0", natRepr m, natRepr h, str "*", str "*", str "*"] : List Str).getD 5 [] =
          str "*" from rfl,
        show ([str "0", natRepr m, natRepr h, str "*", str "*", str "*"] : List Str).getD 2 [] =
          natRepr h from rfl,
        show ([str "0", natRepr m, natRepr h, str "*", str "*", str "*"] : List Str).getD 1 [] =
          natRepr m from rfl]
    rw [if_pos ⟨rfl, rfl, rfl, natRepr_ne_star h, natRepr_ne_star m⟩]
    exact dailyRender_natRepr h m
  exact hbody

/-- C2: for every hour in `[0,23]` and minute in `[0,59]`, decoding the
encoded daily time returns exactly the same hour and minute. -/
theorem c2_roundtrip : ∀ h : Nat, h < 24 → ∀ m : Nat, m < 60 →
    cronToTime (timeToCron h m) = some ((h : Int), (m : Int)) :=
  fun h _ m _ => cronToTime_timeToCron h m

/-- Witness for C2 at 7:30. -/
theorem c2_roundtrip_witness :
    cronToTime (timeToCron 7 30) = some ((7 : Int), (30 : Int)) :=
  c2_roundtrip 7 (by decide) 30 (by decide)

/-- C3 (amended): `formatCron` on the encoded time 7:00 returns the preset
label `7:00 AM Daily` (preset precedence), and on 18:30 and 0:00 — which
match no preset — returns `Daily at 6:30 PM` and `Daily at 12:00 AM`. -/
theorem c3_description_examples :
    formatCron (timeToCron 7 0) = str "7:00 AM Daily" ∧
    formatCron (timeToCron 18 30) = str "Daily at 6:30 PM" ∧
    formatCron (timeToCron 0 0) = str "Daily at 12:00 AM" := by decide

/-- Counterexample for C3 as stated: the encoded time 7:00 is exactly the
preset `0 0 7 * * *`, so by the claim's own precedence rule the preset label
`7:00 AM Daily` is returned, not `Daily at 7:00 AM`. -/
theorem c3_preset_counterexample :
    formatCron (timeToCron 7 0) = str "7:00 AM Daily" ∧
    str "7:00 AM Daily" ≠ str "Daily at 7:00 AM" := by decide

/-- Counterexample for C4 as stated: the minute field `1/2` contains `/`,
so the claim demands `null`, but the source only screens the hour field and
`parseInt("1/2")` yields `1`, so decoding succeeds with minute `1`. -/
theorem c4_minute_slash_counterexample :
    cronToTime (str "0 1/2 7 * * *") = some (7, 1) ∧
    strContains (str "1/2") '/' = true := by decide

/-- Counterexample for C5 as stated: `0 0 */5 * * *` matches no preset and
its hour field `*/5` is not a plain literal, so the claim demands the raw
string back, but the source only compares the hour field against the exact
string `*` and renders `Daily at NaN:00 AM`. -/
theorem c5_nan_counterexample :
    formatCron (str "0 0 */5 * * *") = str "Daily at NaN:00 AM" ∧
    (splitOnSpace (str "0 0 */5 * * *")).length = 6 ∧
    CRON_PRESETS.find? (fun p => p.value == str "0 0 */5 * * *") = none ∧
    strContains ((splitOnSpace (str "0 0 */5 * * *")).getD 2 []) '*' = true ∧
    formatCron (str "0 0 */5 * * *") ≠ str "0 0 */5 * * *" := by decide

/-- Counterexample for C10 as stated: the five-field daily expression
`0 6 * * *` renders as `Daily at 6:00 AM`, but its corresponding six-field
expression `0 0 6 * * *` is a preset and returns `6:00 AM Daily`, a
different label. -/
theorem c10_preset_counterexample :
    formatCron (str "0 6 * * *") = str "Daily at 6:00 AM" ∧
    formatCron (str "0 0 6 * * *") = str "6:00 AM Daily" ∧
    str "Daily at 6:00 AM" ≠ str "6:00 AM Daily" := by decide

/-- C4 (amended): decoding fails unless exactly six fields are present, and
otherwise succeeds exactly when both the minute field (field 2) and the hour
field (field 3) parse as integers and the hour field contains neither `*`
nor `/`; the minute field is not screened for `*` or `/` beyond the parse
itself.  In particular `0 0 */6 * * *` decodes to `null`. -/
theorem c4_decode_characterization :
    cronToTime (str "0 0 */6 * * *") = none ∧
    ∀ s : Str, ∀ hm : Int × Int, (cronToTime s = some hm ↔
      ((splitOnSpace s).length = 6 ∧
       parseIntJS ((splitOnSpace s).getD 2 []) = some hm.1 ∧
       parseIntJS ((splitOnSpace s).getD 1 []) = some hm.2 ∧
       strContains ((splitOnSpace s).getD 2 []) '*' = false ∧
       strContains ((splitOnSpace s).getD 2 []) '/' = false)) := by
  constructor
  · decide
  · intro s hm
    constructor
    · intro hsome
      unfold cronToTime at hsome
      split_ifs at hsome with hlen hstar
      · exfalso
        cases hh : parseIntJS ((splitOnSpace s).getD 2 []) with
        | none =>
          rw [hh] at hsome
          exact Option.noConfusion (show (none : Option (Int × Int)) = some hm from hsome)
        | some hv =>
          cases hmin : parseIntJS ((splitOnSpace s).getD 1 []) with
          | none =>
            rw [hh, hmin] at hsome
            exact Option.noConfusion (show (none : Option (Int × Int)) = some hm from hsome)
          | some mv =>
            rw [hh, hmin] at hsome
            exact Option.noConfusion (show (none : Option (Int × Int)) = some hm from hsome)
      · have hlen6 : (splitOnSpace s).length = 6 := not_ne_iff.mp hlen
        rw [not_or] at hstar
        obtain ⟨h1, h2⟩ := hstar
        cases hh : parseIntJS ((splitOnSpace s).getD 2 []) with
        | none =>
          rw [hh] at hsome
          exact Option.noConfusion (show (none : Option (Int × Int)) = some hm from hsome)
        | some hv =>
          cases hmin : parseIntJS ((splitOnSpace s).getD 1 []) with
          | none =>
            rw [hh, hmin] at hsome
            exact Option.noConfusion (show (none : Option (Int × Int)) = some hm from hsome)
          | some mv =>
            rw [hh, hmin] at hsome
            obtain rfl :=
              Option.some.inj (show (some (hv, mv) : Option (Int × Int)) = some hm from hsome)
            exact ⟨hlen6, rfl, rfl, by simpa using h1, by simpa using h2⟩
    · rintro ⟨hlen6, hh, hmin, hstar, hslash⟩
      unfold cronToTime
      rw [if_neg (not_ne_iff.mpr hlen6)]
      rw [hh, hmin]
      have hres : (if strContains ((splitOnSpace s).getD 2 []) '*' ∨
          strContains ((splitOnSpace s).getD 2 []) '/' then (none : Option (Int × Int))
          else some (hm.1, hm.2)) = some hm := by
        rw [if_neg (by rw [hstar, hslash]; simp)]
      exact hres

/-- C5 (amended): a six-field expression that matches no preset is returned
raw whenever it fails the daily-branch condition actually checked by the
source: dayOfMonth, month and dayOfWeek all `*` with hour and minute each
differing from the exact string `*` (not the stronger plain-literal check of
the claim). -/
theorem c5_raw_fallback (s : Str)
    (hfind : CRON_PRESETS.find? (fun p => p.value == s) = none)
    (hlen : (splitOnSpace s).length = 6)
    (hcond : ¬((splitOnSpace s).getD 3 [] = str "*" ∧ (splitOnSpace s).getD 4 [] = str "*" ∧
      (splitOnSpace s).getD 5 [] = str "*" ∧ (splitOnSpace s).getD 2 [] ≠ str "*" ∧
      (splitOnSpace s).getD 1 [] ≠ str "*")) :
    formatCron s = s := by
  unfold formatCron
  rw [hfind]
  have hgoal : (if (splitOnSpace s).length < 5 then s
      else if cronFieldAt s 3 2 = str "*" ∧ cronFieldAt s 4 3 = str "*" ∧
          cronFieldAt s 5 4 = str "*" ∧ cronFieldAt s 2 1 ≠ str "*" ∧
          cronFieldAt s 1 0 ≠ str "*" then
        dailyRender (cronFieldAt s 2 1) (cronFieldAt s 1 0)
      else s) = s := by
    rw [if_neg (by omega : ¬((splitOnSpace s).length < 5))]
    rw [cronFieldAt_of_len6 s hlen 3 2, cronFieldAt_of_len6 s hlen 4 3,
      cronFieldAt_of_len6 s hlen 5 4, cronFieldAt_of_len6 s hlen 2 1,
      cronFieldAt_of_len6 s hlen 1 0]
    rw [if_neg hcond]
  exact hgoal

/-- Witness for the amended C5: `1 2 3 4 5 6` has six fields, matches no
preset, fails the daily condition, and is returned verbatim. -/
theorem c5_raw_fallback_witness : formatCron (str "1 2 3 4 5 6") = str "1 2 3 4 5 6" :=
  c5_raw_fallback (str "1 2 3 4 5 6") (by decide) (by decide) (by decide)

/-- C10 (amended): every five-field expression `{minute} {hour} * * *` with
decimal-literal hour below 24 and minute below 60 renders as the daily label
`Daily at {12-hour}:{minute:02d} {AM|PM}`, and the corresponding six-field
expression renders identically whenever it matches no preset (a preset match
returns the preset label instead). -/
theorem c10_five_field_daily : ∀ h : Nat, h < 24 → ∀ m : Nat, m < 60 →
    formatCron (fiveFieldDaily h m) = dailyLabelSpec h m ∧
    (CRON_PRESETS.find? (fun p => p.value == timeToCron h m) = none →
      formatCron (timeToCron h m) = dailyLabelSpec h m) :=
  fun h _ m _ => ⟨formatCron_fiveFieldDaily h m,
    fun hfind => formatCron_timeToCron_of_not_preset h m hfind⟩

/-- Witness for the amended C10 at 6:30 (whose six-field form is not a preset). -/
theorem c10_five_field_daily_witness :
    formatCron (fiveFieldDaily 6 30) = dailyLabelSpec 6 30 ∧
    (CRON_PRESETS.find? (fun p => p.value == timeToCron 6 30) = none →
      formatCron (timeToCron 6 30) = dailyLabelSpec 6 30) :=
  c10_five_field_daily 6 (by decide) 30 (by decide)
